import Mathlib

/-!
Verification of the reliable-messaging and topology engine of the
`rustafarian-content_server` node (`src/content_server.rs`).

The Rust code is shallowly embedded: the server state is a record of the
fields of `ContentServer` that the protocol engine touches, hash maps become
association lists, channel sends become an output list of
`(neighbor, packet)` pairs, and a Rust panic (an `unwrap` on a closed
channel, an out-of-bounds index, an `unreachable!`) is the `none` final
state of an `ExecResult`.  Outputs produced before a panic are kept, as the
real channel sends have already happened when the thread dies.

The collaborators that live in the `rustafarian_shared` and `wg_2024`
crates (topology store, route computation, fragment assembler and
disassembler) are not part of this repository's sources; they are modelled
from the specification and marked as such in their doc comments.
-/

namespace ContentServerProof

abbrev NodeId := Nat

abbrev SessionId := Nat

inductive NodeType where
  | Drone
  | Client
  | Server
deriving DecidableEq, Repr

inductive NackType where
  | ErrorInRouting (node : NodeId)
  | DestinationIsDrone
  | Dropped
  | UnexpectedRecipient
deriving DecidableEq, Repr

structure Fragment where
  fragment_index : Nat
  total_n_fragments : Nat
  length : Nat
  data : List Nat
deriving DecidableEq, Repr

structure SourceRoutingHeader where
  hop_index : Nat
  hops : List NodeId
deriving DecidableEq, Repr

structure Ack where
  fragment_index : Nat
deriving DecidableEq, Repr

structure Nack where
  fragment_index : Nat
  nack_type : NackType
deriving DecidableEq, Repr

structure FloodRequest where
  flood_id : Nat
  initiator_id : NodeId
  path_trace : List (NodeId × NodeType)
deriving DecidableEq, Repr

structure FloodResponse where
  flood_id : Nat
  path_trace : List (NodeId × NodeType)
deriving DecidableEq, Repr

inductive PacketType where
  | MsgFragment (f : Fragment)
  | Ack (a : Ack)
  | Nack (n : Nack)
  | FloodRequest (r : FloodRequest)
  | FloodResponse (r : FloodResponse)
deriving DecidableEq, Repr

structure Packet where
  pack_type : PacketType
  session_id : SessionId
  routing_header : SourceRoutingHeader
deriving DecidableEq, Repr

/-- Events sent on the supervisor (simulation controller) response channel.
The payload of `PacketSent` besides the session id (a packet-type string in
the code) is elided. -/
inductive Event where
  | PacketSent (session_id : SessionId)
  | PacketReceived (session_id : SessionId)
  | MessageSent (session_id : SessionId)
  | FloodResponseMsg (flood_id : Nat)
deriving DecidableEq, Repr

/-! ### Association lists (the Rust `HashMap`s keyed by `u64`/`u8`) -/

def lookupA {α : Type} : List (Nat × α) → Nat → Option α
  | [], _ => none
  | (k, v) :: rest, key => if k = key then some v else lookupA rest key

def updateA {α : Type} : List (Nat × α) → Nat → α → List (Nat × α)
  | [], _, _ => []
  | (k, v) :: rest, key, nv =>
    if k = key then (k, nv) :: rest else (k, v) :: updateA rest key nv

def removeA {α : Type} : List (Nat × α) → Nat → List (Nat × α)
  | [], _ => []
  | (k, v) :: rest, key => if k = key then rest else (k, v) :: removeA rest key

/-- `map.entry(k).or_insert_with(Vec::new).push(x)`. -/
def pushA {α : Type} (m : List (Nat × List α)) (k : Nat) (x : α) : List (Nat × List α) :=
  match lookupA m k with
  | none => m ++ [(k, [x])]
  | some l => updateA m k (l ++ [x])

/-- `vec.remove(pos)` at the first position holding `x`, if any. -/
def removeFirst : List Nat → Nat → List Nat
  | [], _ => []
  | y :: ys, x => if y = x then ys else y :: removeFirst ys x

/-! ### Topology and route computation

The `Topology` store and `compute_route` are imported by the Rust code from
the shared crate `rustafarian_shared::topology`, whose sources are not part
of this repository.  They are modelled from the specification. -/

/-- Modelled from the spec: the shared crate's `Topology`, an undirected
graph over node ids with adjacency stored as a map `NodeId -> set<NodeId>`
(spec section 3 and 4.7); missing from `src/`. -/
structure Topology where
  nodes : List NodeId
  adj : List (NodeId × List NodeId)
deriving DecidableEq, Repr

/-- Modelled from the spec: `add_node` inserts an isolated node (idempotent). -/
def addNode (t : Topology) (n : NodeId) : Topology :=
  if t.nodes.contains n then t else ⟨t.nodes ++ [n], t.adj ++ [(n, [])]⟩

def adjInsert (m : List (NodeId × List NodeId)) (u v : NodeId) : List (NodeId × List NodeId) :=
  m.map fun p => if p.1 = u then (p.1, if p.2.contains v then p.2 else p.2 ++ [v]) else p

/-- Modelled from the spec: `add_edge` is idempotent and keeps the graph
undirected (`u ∈ adj(v) ⇔ v ∈ adj(u)`, spec section 3). -/
def addEdge (t : Topology) (u v : NodeId) : Topology :=
  let t1 := addNode (addNode t u) v
  ⟨t1.nodes, adjInsert (adjInsert t1.adj u v) v u⟩

/-- Modelled from the spec: `remove_node(x)` erases `x` and every `(x,·)`
edge (spec section 3). -/
def removeNode (t : Topology) (x : NodeId) : Topology :=
  ⟨t.nodes.filter (fun n => n ≠ x),
   (t.adj.filter (fun p => p.1 ≠ x)).map fun p => (p.1, p.2.filter (fun n => n ≠ x))⟩

/-- Modelled from the spec: `remove_edges(u,v)` removes only the `(u,v)` and
`(v,u)` adjacency, not the nodes (spec section 4.7). -/
def removeEdges (t : Topology) (u v : NodeId) : Topology :=
  ⟨t.nodes,
   t.adj.map fun p =>
     if p.1 = u then (p.1, p.2.filter (fun n => n ≠ v))
     else if p.1 = v then (p.1, p.2.filter (fun n => n ≠ u))
     else p⟩

def insSorted (x : Nat) : List Nat → List Nat
  | [] => [x]
  | y :: ys => if x ≤ y then x :: y :: ys else y :: insSorted x ys

def sortAsc (l : List Nat) : List Nat := l.foldr insSorted []

def neighborsOf (t : Topology) (n : NodeId) : List NodeId :=
  sortAsc ((lookupA t.adj n).getD [])

/-- Breadth-first search over paths stored in reverse; the queue is FIFO and
neighbors are expanded in ascending id order, so among equal-length paths the
one with the smallest next hop is found first. -/
def bfsAux (t : Topology) (dst : NodeId) :
    Nat → List (List NodeId) → List NodeId → List NodeId
  | 0, _, _ => []
  | _ + 1, [], _ => []
  | fuel + 1, path :: queue, visited =>
    match path with
    | [] => bfsAux t dst fuel queue visited
    | cur :: _ =>
      if cur = dst then path.reverse
      else
        let ns := (neighborsOf t cur).filter fun n => ¬ visited.contains n
        bfsAux t dst fuel (queue ++ ns.map fun n => n :: path) (visited ++ ns)

def topoFuel (t : Topology) : Nat :=
  t.nodes.length + (t.adj.map fun p => p.2.length).foldr (· + ·) 0 + 2

/-- Modelled from the spec: `compute_route` returns the shortest path
`[src, …, dst]` through the current topology (unit weights, deterministic
tie-break by ascending next-hop id); the empty list signals "no route"
(spec sections 4.6 and 4.7); missing from `src/`. -/
def computeRoute (t : Topology) (src dst : NodeId) : List NodeId :=
  bfsAux t dst (topoFuel t) [[src]] [src]

/-! ### Server state and execution results -/

/-- The fields of `ContentServer` that the protocol engine touches.  The
neighbor channel map `senders` is kept as the list of installed neighbor
ids; file and media indexes are not part of the engine. -/
structure ServerState where
  server_id : NodeId
  senders : List NodeId
  topology : Topology
  sent_packets : List (SessionId × List Packet)
  nack_queue : List (SessionId × List Nack)
  assembler : List (SessionId × List Fragment)
  flood_time : Nat
deriving DecidableEq, Repr

/-- Result of one handler run: the packets handed to installed neighbor
channels (in order), the events sent to the supervisor channel, and the
final state — `none` when the handler panics.  Outputs produced before a
panic are kept. -/
structure ExecResult where
  outs : List (NodeId × Packet)
  evs : List Event
  fin : Option ServerState
deriving DecidableEq, Repr

/-! ### Assembler and disassembler (external collaborators)

The fragment assembler and disassembler live in
`rustafarian_shared::assembler`, outside this repository. -/

def FRAG_SIZE : Nat := 128

/-- Modelled from the spec: the external `Disassembler` splits a byte
buffer into fragments of `FRAG_SIZE` bytes carrying index and total
(spec sections 1, 3 and 4.4); missing from `src/`. -/
def disassemble_message (message : List Nat) : List Fragment :=
  let total := (message.length + FRAG_SIZE - 1) / FRAG_SIZE
  (List.range total).map fun i =>
    let chunk := (message.drop (i * FRAG_SIZE)).take FRAG_SIZE
    { fragment_index := i, total_n_fragments := total,
      length := chunk.length, data := chunk }

def asmInsert (l : List Fragment) (f : Fragment) : List Fragment :=
  if l.any (fun g => g.fragment_index = f.fragment_index) then l else l ++ [f]

def asmInsSorted (f : Fragment) : List Fragment → List Fragment
  | [] => [f]
  | g :: gs =>
    if f.fragment_index ≤ g.fragment_index then f :: g :: gs else g :: asmInsSorted f gs

def asmSortedJoin (l : List Fragment) : List Nat :=
  (l.foldr asmInsSorted []).foldr (fun g acc => g.data ++ acc) []

/-- Modelled from the spec: the external `Assembler` buffers fragments per
session, is idempotent on duplicates, and yields the full payload once all
`total_n_fragments` fragments of the session have arrived (spec section 3);
missing from `src/`. -/
def add_fragment (asm : List (SessionId × List Fragment)) (f : Fragment)
    (session_id : SessionId) : List (SessionId × List Fragment) × Option (List Nat) :=
  let cur := (lookupA asm session_id).getD []
  let cur' := asmInsert cur f
  if cur'.length = f.total_n_fragments then
    (removeA asm session_id, some (asmSortedJoin cur'))
  else
    match lookupA asm session_id with
    | none => (asm ++ [(session_id, cur')], none)
    | some _ => (updateA asm session_id cur', none)

/-! ### Packet predicates and small helpers -/

def fragIdxIs (p : Packet) (i : Nat) : Bool :=
  match p.pack_type with
  | .MsgFragment f => f.fragment_index == i
  | _ => false

def isMsgFragment (p : Packet) : Bool :=
  match p.pack_type with
  | .MsgFragment _ => true
  | _ => false

def isFloodRequestPkt (p : Packet) : Bool :=
  match p.pack_type with
  | .FloodRequest _ => true
  | _ => false

def isMessageSentEv : Event → Bool
  | .MessageSent _ => true
  | _ => false

def retentionOf (st : ServerState) (session_id : SessionId) : List Packet :=
  (lookupA st.sent_packets session_id).getD []

/-! ### `send_ack` (content_server.rs lines 787-815) -/

/-- The ack packet built by `send_ack`: hops are the reverse of the inbound
hops, `hop_index = 1`. -/
def ack_packet (fragment_index : Nat) (session_id : SessionId)
    (routing_header : List NodeId) : Packet :=
  { pack_type := .Ack { fragment_index },
    session_id,
    routing_header := { hop_index := 1, hops := routing_header.reverse } }

/-- `send_ack`: builds the ack, indexes `hops[1]` of the reversed hops
without a bounds check (panic when fewer than two hops), and sends it with
`unwrap` (panic when the receiver is closed); an uninstalled neighbor is
logged and the ack dropped. -/
def send_ack (st : ServerState) (closed : List NodeId) (fragment_index : Nat)
    (session_id : SessionId) (routing_header : List NodeId) : ExecResult :=
  let packet := ack_packet fragment_index session_id routing_header
  match packet.routing_header.hops[1]? with
  | none => ⟨[], [], none⟩
  | some drone_id =>
    if st.senders.contains drone_id then
      if closed.contains drone_id then ⟨[], [], none⟩
      else ⟨[(drone_id, packet)], [], some st⟩
    else ⟨[], [], some st⟩

/-! ### `send_message` (content_server.rs lines 472-510) -/

/-- The outbound fragment packet: hops are the reverse of the inbound
route, `hop_index = 1`. -/
def fragment_packet (session_id : SessionId) (route : List NodeId)
    (f : Fragment) : Packet :=
  { pack_type := .MsgFragment f,
    session_id,
    routing_header := { hop_index := 1, hops := route.reverse } }

/-- The per-fragment loop of `send_message`: each packet is pushed into
`sent_packets` before the send; `hops[1]` is indexed without a bounds
check; the channel send is an `unwrap` (panic when closed); a missing
channel is logged and the packet stays retained. -/
def send_message_loop (closed : List NodeId) (session_id : SessionId)
    (route : List NodeId) : List Fragment → ServerState → ExecResult
  | [], st => ⟨[], [], some st⟩
  | f :: rest, st =>
    let packet := fragment_packet session_id route f
    let st1 := { st with sent_packets := pushA st.sent_packets session_id packet }
    match packet.routing_header.hops[1]? with
    | none => ⟨[], [], none⟩
    | some drone_id =>
      if st1.senders.contains drone_id then
        if closed.contains drone_id then ⟨[], [], none⟩
        else
          let r := send_message_loop closed session_id route rest st1
          ⟨(drone_id, packet) :: r.outs, .PacketSent session_id :: r.evs, r.fin⟩
      else send_message_loop closed session_id route rest st1

/-- `send_message`: disassembles the response and sends every fragment along
the reversed inbound route. -/
def send_message (st : ServerState) (closed : List NodeId)
    (_destination_id : NodeId) (message : List Nat) (session_id : SessionId)
    (route : List NodeId) : ExecResult :=
  send_message_loop closed session_id route (disassemble_message message) st

/-! ### `on_ack_arrived` (content_server.rs lines 513-531) -/

/-- The `retain` closure of `on_ack_arrived`: keeps the fragments whose
index differs from the acked one; a retained packet that is not a
`MsgFragment` hits `unreachable!` (panic, modelled as `none`). -/
def retainFragments (ack_index : Nat) : List Packet → Option (List Packet)
  | [] => some []
  | p :: rest =>
    match p.pack_type with
    | .MsgFragment f =>
      match retainFragments ack_index rest with
      | none => none
      | some r => some (if f.fragment_index = ack_index then r else p :: r)
    | _ => none

/-- `on_ack_arrived`: drops every retained fragment of the session with the
acked index; removes the session entry when its list becomes empty. -/
def on_ack_arrived (st : ServerState) (ack : Ack) (session_id : SessionId) :
    Option ServerState :=
  match lookupA st.sent_packets session_id with
  | none => some st
  | some fragments =>
    match retainFragments ack.fragment_index fragments with
    | none => none
    | some kept =>
      if kept.isEmpty then
        some { st with sent_packets := removeA st.sent_packets session_id }
      else
        some { st with sent_packets := updateA st.sent_packets session_id kept }

/-! ### `send_flood_request` (content_server.rs lines 752-784) -/

/-- The flood request packet built per neighbor; `flood_id` and
`session_id` are fresh randoms drawn per send, modelled as functions of the
neighbor id. -/
def flood_packet (server_id : NodeId) (flood_id rand_session : Nat) : Packet :=
  { pack_type := .FloodRequest
      { flood_id, initiator_id := server_id,
        path_trace := [(server_id, NodeType.Server)] },
    session_id := rand_session,
    routing_header := { hop_index := 1, hops := [] } }

/-- The per-neighbor send loop of `send_flood_request`; each send is an
`unwrap` (panic on a closed receiver, flagged by the `Bool`). -/
def floodLoop (closed : List NodeId) (server_id : NodeId)
    (fid rsid : NodeId → Nat) : List NodeId → List (NodeId × Packet) × Bool
  | [] => ([], false)
  | n :: rest =>
    if closed.contains n then ([], true)
    else
      let r := floodLoop closed server_id fid rsid rest
      ((n, flood_packet server_id (fid n) (rsid n)) :: r.1, r.2)

/-- `send_flood_request`: suppressed while `flood_time + timeout > now`;
otherwise `flood_time := now` and one flood request is sent to every
installed neighbor (the controller notification is commented out in the
source, so no event is emitted). -/
def send_flood_request (st : ServerState) (closed : List NodeId) (now : Nat)
    (fid rsid : NodeId → Nat) (timeout : Nat) : ExecResult :=
  if st.flood_time + timeout > now then ⟨[], [], some st⟩
  else
    let st1 := { st with flood_time := now }
    let r := floodLoop closed st1.server_id fid rsid st1.senders
    ⟨r.1, [], if r.2 then none else some st1⟩

/-! ### `resend_packet` (content_server.rs lines 595-658) -/

/-- In-place mutation of the first retained packet with the given fragment
index: its hops are overwritten with the freshly computed route
(`packet.routing_header.hops = new_routing`). -/
def setRouteFirst (i : Nat) (route : List NodeId) : List Packet → List Packet
  | [] => []
  | p :: rest =>
    if fragIdxIs p i then
      { p with routing_header := { p.routing_header with hops := route } } :: rest
    else p :: setRouteFirst i route rest

def updateRetainedRoute (m : List (SessionId × List Packet)) (session_id : SessionId)
    (i : Nat) (route : List NodeId) : List (SessionId × List Packet) :=
  match lookupA m session_id with
  | none => m
  | some l => updateA m session_id (setRouteFirst i route l)

/-- `resend_packet`: finds the retained packet, recomputes its route from
the current topology and overwrites the retained hops; when the new route
is empty the nack re-enters `nack_queue` and the session leaves
`session_to_remove`, but the code then still indexes `hops[1]` (panic on an
empty or one-hop route); the channel send is `unwrap_or_else` (a closed
receiver is logged, no panic) and the `PacketSent` event is emitted even
then.  Returns the run result and the updated `session_to_remove`. -/
def resend_packet (st : ServerState) (closed : List NodeId)
    (fragment_index : Nat) (session_id : SessionId)
    (session_to_remove : List SessionId) (nack_type : NackType) :
    ExecResult × List SessionId :=
  match lookupA st.sent_packets session_id with
  | none => (⟨[], [], some st⟩, session_to_remove)
  | some packets =>
    match packets.find? (fun p => fragIdxIs p fragment_index) with
    | none => (⟨[], [], some st⟩, session_to_remove)
    | some packet =>
      match packet.routing_header.hops.getLast? with
      | none => (⟨[], [], none⟩, session_to_remove)
      | some destination_id =>
        let new_routing := computeRoute st.topology st.server_id destination_id
        let st1 := { st with
          sent_packets := updateRetainedRoute st.sent_packets session_id
            fragment_index new_routing }
        let requeued : Nack := { fragment_index := fragment_index, nack_type := nack_type }
        let step : ServerState × List SessionId :=
          if new_routing.isEmpty then
            ({ st1 with nack_queue := pushA st1.nack_queue session_id requeued },
             removeFirst session_to_remove session_id)
          else (st1, session_to_remove)
        match new_routing[1]? with
        | none => (⟨[], [], none⟩, step.2)
        | some drone_id =>
          let sent := { packet with
            routing_header := { packet.routing_header with hops := new_routing } }
          if step.1.senders.contains drone_id then
            ((if closed.contains drone_id then
                ⟨[], [.PacketSent session_id], some step.1⟩
              else
                ⟨[(drone_id, sent)], [.PacketSent session_id], some step.1⟩),
             step.2)
          else (⟨[], [], some step.1⟩, step.2)

/-! ### `on_nack_arrived` (content_server.rs lines 534-558) -/

/-- `on_nack_arrived`: `Dropped` resends at once with a fresh
`session_to_remove`; `ErrorInRouting(x)` queues the nack, removes `x` from
the topology and floods; every other kind queues the nack and floods. -/
def on_nack_arrived (st : ServerState) (closed : List NodeId) (nack : Nack)
    (packet_session : SessionId) (now : Nat) (fid rsid : NodeId → Nat)
    (timeout : Nat) : ExecResult :=
  match nack.nack_type with
  | .Dropped =>
    (resend_packet st closed nack.fragment_index packet_session [] nack.nack_type).1
  | .ErrorInRouting node_id =>
    let st1 := { st with nack_queue := pushA st.nack_queue packet_session nack }
    let st2 := { st1 with topology := removeNode st1.topology node_id }
    send_flood_request st2 closed now fid rsid timeout
  | _ =>
    let st1 := { st with nack_queue := pushA st.nack_queue packet_session nack }
    send_flood_request st1 closed now fid rsid timeout

/-! ### `on_flood_request` (content_server.rs lines 661-679) -/

/-- The per-neighbor forward loop of `on_flood_request`; each send is an
`unwrap` (panic on a closed receiver, flagged by the `Bool`). -/
def forwardLoop (closed : List NodeId) (pkt : Packet) :
    List NodeId → List (NodeId × Packet) × Bool
  | [] => ([], false)
  | n :: rest =>
    if closed.contains n then ([], true)
    else
      let r := forwardLoop closed pkt rest
      ((n, pkt) :: r.1, r.2)

/-- The relayed flood request packet: the trace is extended with
`(self, Server)`, everything else is unchanged, and the route is empty. -/
def flood_relay_packet (server_id : NodeId) (packet_session : SessionId)
    (request : FloodRequest) : Packet :=
  { pack_type := PacketType.FloodRequest
      { request with path_trace := request.path_trace ++ [(server_id, NodeType.Server)] },
    session_id := packet_session,
    routing_header := { hop_index := 0, hops := [] } }

/-- `on_flood_request`: reads the arrival neighbor from the last
`path_trace` entry (`unwrap`, panic on an empty trace), appends
`(self, Server)` to the trace and forwards the request with an empty route
to every installed neighbor except that one; no reply is ever generated. -/
def on_flood_request (st : ServerState) (closed : List NodeId)
    (packet_session : SessionId) (request : FloodRequest) : ExecResult :=
  match request.path_trace.getLast? with
  | none => ⟨[], [], none⟩
  | some last =>
    let sender_id := last.1
    let response := flood_relay_packet st.server_id packet_session request
    let r := forwardLoop closed response (st.senders.filter fun n => n ≠ sender_id)
    ⟨r.1, [], if r.2 then none else some st⟩

/-! ### `on_flood_response` (content_server.rs lines 682-749) -/

/-- The topology-absorption loop for a self-destined flood reply: each
trace node is added when absent, then each consecutive pair gets an
undirected edge unless already present (the adjacency lookup is an
`unwrap`, panic when the entry is missing). -/
def absorbGo (t : Topology) : Option NodeId → List (NodeId × NodeType) → Option Topology
  | _, [] => some t
  | prev?, (n, _) :: rest =>
    let t1 := if t.nodes.contains n then t else addNode t n
    match prev? with
    | none => absorbGo t1 (some n) rest
    | some prev =>
      match lookupA t1.adj n with
      | none => none
      | some ns =>
        if ns.contains prev then absorbGo t1 (some n) rest
        else absorbGo (addEdge (addEdge t1 prev n) n prev) (some n) rest

def absorbTrace (t : Topology) (trace : List (NodeId × NodeType)) : Option Topology :=
  absorbGo t none trace

/-- The forwarded foreign flood reply: same body, same hops, `hop_index`
advanced by one. -/
def forwarded_response (flood_response : FloodResponse) (packet : Packet) : Packet :=
  { pack_type := PacketType.FloodResponse flood_response,
    session_id := packet.session_id,
    routing_header := { hop_index := packet.routing_header.hop_index + 1,
                        hops := packet.routing_header.hops } }

/-- `on_flood_response`: a reply whose `path_trace` head is not this node
is forwarded along its own hops with `hop_index + 1` when a next hop
exists (`unwrap_or_else` on the send: a closed receiver is logged and the
packet dropped), leaving the state untouched; a self-destined reply is
absorbed into the topology and a `FloodResponse` message is emitted. -/
def on_flood_response (st : ServerState) (closed : List NodeId)
    (flood_response : FloodResponse) (packet : Packet) : ExecResult :=
  if (flood_response.path_trace.head?.map fun node => node.1) ≠ some st.server_id then
    if packet.routing_header.hop_index + 1 < packet.routing_header.hops.length then
      let next_hop := packet.routing_header.hops.getD
        (packet.routing_header.hop_index + 1) 0
      let forward_packet := forwarded_response flood_response packet
      if st.senders.contains next_hop then
        if closed.contains next_hop then ⟨[], [], some st⟩
        else ⟨[(next_hop, forward_packet)], [], some st⟩
      else ⟨[], [], some st⟩
    else ⟨[], [], some st⟩
  else
    match absorbTrace st.topology flood_response.path_trace with
    | none => ⟨[], [], none⟩
    | some t' =>
      ⟨[], [.FloodResponseMsg flood_response.flood_id], some { st with topology := t' }⟩

/-! ### The `MsgFragment` arm of `handle_drone_packets`
(content_server.rs lines 265-287)

The request processor (`process_request`, JSON decoding, disk reads) is an
external collaborator of the fragment-intake step; it is a parameter, so
every property proved below holds for any processor. -/

def ProcessFn : Type :=
  ServerState → NodeId → SessionId → List Nat → List NodeId → ExecResult

/-- The fragment arm of `handle_drone_packets`: the ack is sent first,
then the `PacketReceived` event, then the fragment goes to the assembler;
a completed message is handed to the request processor together with
`hops[0]` (`expect`, panic when hops is empty) and the inbound hops. -/
def handle_msg_fragment (process : ProcessFn) (st : ServerState)
    (closed : List NodeId) (f : Fragment) (session_id : SessionId)
    (hops : List NodeId) : ExecResult :=
  let r1 := send_ack st closed f.fragment_index session_id hops
  match r1.fin with
  | none => r1
  | some st0 =>
    let evs := [Event.PacketReceived session_id]
    let step := add_fragment st0.assembler f session_id
    let st1 := { st0 with assembler := step.1 }
    match step.2 with
    | none => ⟨r1.outs, evs, some st1⟩
    | some message =>
      match hops.head? with
      | none => ⟨r1.outs, evs, none⟩
      | some src =>
        let r2 := process st1 src session_id message hops
        ⟨r1.outs ++ r2.outs, evs ++ r2.evs, r2.fin⟩

/-! ### Concrete example states (used by counterexamples and witnesses) -/

/-- `true` when the retention entry for `k`, if present, is nonempty. -/
def entryNonemptyB (m : List (SessionId × List Packet)) (k : SessionId) : Bool :=
  match lookupA m k with
  | none => true
  | some l => !l.isEmpty

def egFrag : Fragment := ⟨0, 1, 3, [1, 2, 3]⟩

/-- Diamond topology: 1-2, 2-21, 1-3, 3-21; two equal-length routes from 1 to 21. -/
def egTopoDiamond : Topology :=
  ⟨[1, 2, 3, 21], [(1, [2, 3]), (2, [1, 21]), (3, [1, 21]), (21, [2, 3])]⟩

/-- Line topology 1-2 with no route to client 21. -/
def egTopoLine : Topology := ⟨[1, 2], [(1, [2]), (2, [1])]⟩

/-- The scenario topology of spec section 8: 1-2, 2-21. -/
def egTopoS6 : Topology := ⟨[1, 2, 21], [(1, [2]), (2, [1, 21]), (21, [2])]⟩

/-- Retained fragment 0 of session 5, last sent along 1-3-21. -/
def egPacketAlt : Packet := ⟨.MsgFragment egFrag, 5, ⟨1, [1, 3, 21]⟩⟩

/-- Retained fragment 0 of session 5, last sent along 1-2-21. -/
def egPacketMain : Packet := ⟨.MsgFragment egFrag, 5, ⟨1, [1, 2, 21]⟩⟩

def egStateDiamond : ServerState :=
  ⟨1, [2, 3], egTopoDiamond, [(5, [egPacketAlt])], [], [], 0⟩

def egStateLine : ServerState :=
  ⟨1, [2], egTopoLine, [(5, [egPacketMain])], [], [], 0⟩

def egStateS6 : ServerState :=
  ⟨1, [2], egTopoS6, [(5, [egPacketMain])], [], [], 0⟩

def egZero : NodeId → Nat := fun _ => 0

def egProcess : ProcessFn := fun st _ _ _ _ => ⟨[], [], some st⟩

/-- The transiting flood reply of scenario S5 (spec section 8). -/
def egTransitResponse : FloodResponse :=
  ⟨1, [(21, .Drone), (1, .Drone), (2, .Server), (4, .Drone), (3, .Drone)]⟩

def egTransitPacket : Packet :=
  ⟨.FloodResponse egTransitResponse, 3, ⟨2, [3, 4, 1, 2, 21]⟩⟩

/-- The retained packet after the in-place route overwrite of
`resend_packet` (`packet.routing_header.hops = new_routing`). -/
def rerouted (packet : Packet) (route : List NodeId) : Packet :=
  { packet with routing_header := { packet.routing_header with hops := route } }

/-- The server state after `resend_packet` overwrote the retained route of
`(session_id, i)`; every other field is untouched. -/
def resentState (st : ServerState) (session_id : SessionId) (i : Nat)
    (route : List NodeId) : ServerState :=
  { st with sent_packets := updateRetainedRoute st.sent_packets session_id i route }

/-! ## Theorems -/

/-- Claim C1 is false as stated: in the diamond topology the retained
fragment `(5, 0)` was last sent with hops `[1, 3, 21]`, yet handling
`Nack{index 0, Dropped}` resends it with the freshly computed hops
`[1, 2, 21]` — not the hops it was last sent with. -/
theorem c1_counterexample :
    (on_nack_arrived egStateDiamond [] ⟨0, .Dropped⟩ 5 0 egZero egZero 0).outs.map
        (fun o => o.2.routing_header.hops) = [[1, 2, 21]] ∧
    retentionOf egStateDiamond 5 = [egPacketAlt] ∧
    egPacketAlt.routing_header.hops = [1, 3, 21] ∧
    ([1, 2, 21] : List NodeId) ≠ [1, 3, 21] := by decide

/-- Claim C2: evaluation at the failing input.  Fragment `(5, 0)` is
retained with destination 21 but the line topology has no route to 21;
handling `Nack{index 0, Dropped}` computes the empty route and then indexes
`hops[1]` of the now-empty hops: the handler panics (`fin = none`) with
nothing sent and no flood, instead of quietly parking the fragment in the
retry set. -/
theorem c2_no_route_panics :
    (on_nack_arrived egStateLine [] ⟨0, .Dropped⟩ 5 0 egZero egZero 0).fin = none ∧
    (on_nack_arrived egStateLine [] ⟨0, .Dropped⟩ 5 0 egZero egZero 0).outs = [] ∧
    computeRoute egStateLine.topology 1 21 = [] ∧
    retentionOf egStateLine 5 ≠ [] := by decide

/-- Claim C3 is false as stated: an ack handed to installed neighbor 2
whose receiver is closed makes `send_ack` panic (`unwrap` on the failed
send), modelled as `fin = none`. -/
theorem c3_counterexample :
    (send_ack egStateLine [2] 0 7 [21, 2, 1]).fin = none ∧
    egStateLine.senders.contains 2 = true := by decide

/-- Claim C7 is false as stated: a foreign flood reply whose routing header
has no next hop (`hop_index + 1 = hops.length`) is not forwarded at all —
the handler emits nothing. -/
theorem c7_counterexample :
    (on_flood_response egStateLine [] ⟨1, [(21, .Drone)]⟩
        ⟨.FloodResponse ⟨1, [(21, .Drone)]⟩, 3, ⟨1, [2, 1]⟩⟩).outs = [] ∧
    (([(21, NodeType.Drone)] : List (NodeId × NodeType)).head?.map
        (fun node => node.1)) ≠ some egStateLine.server_id := by decide

/-! ### Association-list lemmas -/

theorem lookupA_eq_none {α : Type} (m : List (Nat × α)) (k : Nat)
    (h : k ∉ m.map Prod.fst) : lookupA m k = none := by
  induction m with
  | nil => rfl
  | cons p rest ih =>
    obtain ⟨k', v'⟩ := p
    simp only [List.map_cons, List.mem_cons] at h
    push_neg at h
    have hk : ¬ k' = k := fun e => h.1 e.symm
    simp [lookupA, hk, ih h.2]

theorem lookupA_updateA_self {α : Type} (m : List (Nat × α)) (k : Nat) (v : α) :
    lookupA (updateA m k v) k = (lookupA m k).map fun _ => v := by
  induction m with
  | nil => rfl
  | cons p rest ih =>
    obtain ⟨k', v'⟩ := p
    by_cases h : k' = k
    · simp [updateA, lookupA, h]
    · simp [updateA, lookupA, h, ih]

theorem lookupA_updateA_ne {α : Type} (m : List (Nat × α)) (k s : Nat) (v : α)
    (h : s ≠ k) : lookupA (updateA m k v) s = lookupA m s := by
  have hsk : ¬ (k = s) := fun e => h e.symm
  induction m with
  | nil => rfl
  | cons p rest ih =>
    obtain ⟨k', v'⟩ := p
    by_cases hk : k' = k
    · subst hk
      simp [updateA, lookupA, hsk]
    · by_cases hs : k' = s <;> simp [updateA, lookupA, hk, hs, hsk, h, ih]

theorem lookupA_removeA_ne {α : Type} (m : List (Nat × α)) (k s : Nat)
    (h : s ≠ k) : lookupA (removeA m k) s = lookupA m s := by
  have hsk : ¬ (k = s) := fun e => h e.symm
  induction m with
  | nil => rfl
  | cons p rest ih =>
    obtain ⟨k', v'⟩ := p
    by_cases hk : k' = k
    · subst hk
      simp [removeA, lookupA, hsk]
    · by_cases hs : k' = s <;> simp [removeA, lookupA, hk, hs, hsk, h, ih]

theorem lookupA_removeA_self {α : Type} (m : List (Nat × α)) (k : Nat)
    (h : (m.map Prod.fst).Nodup) : lookupA (removeA m k) k = none := by
  induction m with
  | nil => rfl
  | cons p rest ih =>
    obtain ⟨k', v'⟩ := p
    simp only [List.map_cons, List.nodup_cons] at h
    by_cases hk : k' = k
    · subst hk
      simp only [removeA, if_pos rfl]
      exact lookupA_eq_none rest k' h.1
    · simp [removeA, lookupA, hk, ih h.2]

theorem updateA_self {α : Type} (m : List (Nat × α)) (k : Nat) (v : α)
    (h : lookupA m k = some v) : updateA m k v = m := by
  induction m with
  | nil => rfl
  | cons p rest ih =>
    obtain ⟨k', v'⟩ := p
    by_cases hk : k' = k
    · simp only [lookupA, if_pos hk] at h
      have hv : v' = v := Option.some.inj h
      simp [updateA, hk, hv]
    · simp only [lookupA, if_neg hk] at h
      simp [updateA, hk, ih h]

/-- The `retain` closure never panics on a retention list of fragments and
keeps exactly the packets whose index differs from the acked one. -/
theorem retainFragments_eq_filter (i : Nat) (l : List Packet)
    (h : l.all isMsgFragment = true) :
    retainFragments i l = some (l.filter fun p => !fragIdxIs p i) := by
  induction l with
  | nil => rfl
  | cons p rest ih =>
    simp only [List.all_cons, Bool.and_eq_true] at h
    obtain ⟨pt, psid, prh⟩ := p
    cases pt with
    | MsgFragment f =>
      by_cases hfi : f.fragment_index = i
      · have hbt : (f.fragment_index == i) = true := by simp [hfi]
        simp [retainFragments, fragIdxIs, List.filter, hfi, hbt, ih h.2]
      · have hbf : (f.fragment_index == i) = false := by simp [hfi]
        simp [retainFragments, fragIdxIs, List.filter, hfi, hbf, ih h.2]
    | Ack a => simp [isMsgFragment] at h
    | Nack n => simp [isMsgFragment] at h
    | FloodRequest r => simp [isMsgFragment] at h
    | FloodResponse r => simp [isMsgFragment] at h

/-- Claim C5: an arriving `Ack{index}` for session S removes from the
retention of S exactly the packets with that fragment index, an emptied
retention list removes S from the mapping, other sessions are untouched,
and an ack matching no retained packet is a no-op.  The hypotheses are the
`HashMap` key uniqueness and the invariants that retained packets are
message fragments kept in nonempty lists. -/
theorem c5_ack_retention (st : ServerState) (ack : Ack) (sid : SessionId)
    (hnodup : (st.sent_packets.map Prod.fst).Nodup)
    (hfrag : (retentionOf st sid).all isMsgFragment = true)
    (hne : entryNonemptyB st.sent_packets sid = true) :
    ∃ st', on_ack_arrived st ack sid = some st' ∧
      retentionOf st' sid =
        (retentionOf st sid).filter (fun p => !fragIdxIs p ack.fragment_index) ∧
      entryNonemptyB st'.sent_packets sid = true ∧
      (∀ s, s ≠ sid → lookupA st'.sent_packets s = lookupA st.sent_packets s) ∧
      ((retentionOf st sid).all (fun p => !fragIdxIs p ack.fragment_index) = true →
        st' = st) := by
  cases hl : lookupA st.sent_packets sid with
  | none =>
    refine ⟨st, ?_, ?_, hne, fun s _ => rfl, fun _ => rfl⟩
    · simp [on_ack_arrived, hl]
    · simp [retentionOf, hl]
  | some packets =>
    have hfrag' : packets.all isMsgFragment = true := by
      simpa [retentionOf, hl] using hfrag
    have hpne : packets ≠ [] := by
      intro e
      subst e
      simp [entryNonemptyB, hl] at hne
    have hkeep := retainFragments_eq_filter ack.fragment_index packets hfrag'
    set kept := packets.filter (fun p => !fragIdxIs p ack.fragment_index) with hkdef
    have hfe : (retentionOf st sid).all (fun p => !fragIdxIs p ack.fragment_index) = true →
        kept = packets := by
      intro hall
      rw [hkdef]
      apply List.filter_eq_self.mpr
      intro a ha
      have h1 : packets.all (fun p => !fragIdxIs p ack.fragment_index) = true := by
        simpa [retentionOf, hl] using hall
      exact List.all_eq_true.mp h1 a ha
    by_cases hk : kept = []
    · refine ⟨{ st with sent_packets := removeA st.sent_packets sid }, ?_, ?_, ?_, ?_, ?_⟩
      · simp [on_ack_arrived, hl, hkeep, hk]
      · have hrm := lookupA_removeA_self st.sent_packets sid hnodup
        simp [retentionOf, hrm, hl, ← hkdef, hk]
      · have hrm := lookupA_removeA_self st.sent_packets sid hnodup
        simp [entryNonemptyB, hrm]
      · exact fun s hs => lookupA_removeA_ne st.sent_packets sid s hs
      · intro hall
        exact absurd (hk ▸ hfe hall).symm hpne
    · have hkb : kept.isEmpty = false := by
        cases hc : kept with
        | nil => exact absurd hc hk
        | cons a l => rfl
      refine ⟨{ st with sent_packets := updateA st.sent_packets sid kept }, ?_, ?_, ?_, ?_, ?_⟩
      · simp [on_ack_arrived, hl, hkeep, hkb]
      · have hup := lookupA_updateA_self st.sent_packets sid kept
        simp [retentionOf, hup, hl, ← hkdef]
      · have hup := lookupA_updateA_self st.sent_packets sid kept
        simp [entryNonemptyB, hup, hl, hkb]
      · exact fun s hs => lookupA_updateA_ne st.sent_packets sid s kept hs
      · intro hall
        have h2 := hfe hall
        rw [h2, updateA_self st.sent_packets sid packets hl]

/-- Witness for C5 at the scenario state: ack 0 for session 5 empties the
retention of session 5 and removes the session from the mapping. -/
theorem c5_ack_retention_witness :
    ∃ st', on_ack_arrived egStateS6 ⟨0⟩ 5 = some st' ∧
      retentionOf st' 5 = (retentionOf egStateS6 5).filter (fun p => !fragIdxIs p 0) ∧
      entryNonemptyB st'.sent_packets 5 = true ∧
      (∀ s, s ≠ 5 → lookupA st'.sent_packets s = lookupA egStateS6.sent_packets s) ∧
      ((retentionOf egStateS6 5).all (fun p => !fragIdxIs p 0) = true → st' = egStateS6) :=
  c5_ack_retention egStateS6 ⟨0⟩ 5 (by decide) (by decide) (by decide)

/-- The `send_message` fragment loop only ever emits `PacketSent` events. -/
theorem send_message_loop_evs (closed : List NodeId) (sid : SessionId)
    (route : List NodeId) :
    ∀ (fs : List Fragment) (st : ServerState) (e : Event),
      e ∈ (send_message_loop closed sid route fs st).evs → isMessageSentEv e = false := by
  intro fs
  induction fs with
  | nil =>
    intro st e he
    simp [send_message_loop] at he
  | cons f rest ih =>
    intro st e he
    simp only [send_message_loop] at he
    cases h1 : (fragment_packet sid route f).routing_header.hops[1]? with
    | none => rw [h1] at he; simp at he
    | some d =>
      rw [h1] at he
      by_cases hd : d ∈ st.senders
      · by_cases hc : d ∈ closed
        · simp [hd, hc] at he
        · simp [hd, hc] at he
          rcases he with he | he
          · rw [he]; rfl
          · exact ih _ e he
      · simp [hd] at he
        exact ih _ e he

/-- Claim C4: evaluation against the code.  `send_message` never emits a
`MessageSent` event — for every state, message, session and route the
events it produces contain no `MessageSent` at all (it emits one
`PacketSent` per fragment instead), while the claim and the repository's
own `server_type_test` expect exactly one `MessageSent{session_id}` per
logical message. -/
theorem c4_no_message_sent (st : ServerState) (closed : List NodeId)
    (destination_id : NodeId) (message : List Nat) (session_id : SessionId)
    (route : List NodeId) :
    ((send_message st closed destination_id message session_id route).evs.filter
        isMessageSentEv) = [] := by
  rw [List.filter_eq_nil_iff]
  intro e he
  simp [send_message_loop_evs closed session_id route (disassemble_message message) st e he]

/-- The `send_message` fragment loop cannot panic when the route has a
next hop whose channel is not closed. -/
theorem send_message_loop_fin (closed : List NodeId) (sid : SessionId)
    (route : List NodeId) (drone : NodeId)
    (h1 : route.reverse[1]? = some drone) (hopen : drone ∉ closed) :
    ∀ (fs : List Fragment) (st : ServerState),
      (send_message_loop closed sid route fs st).fin.isSome = true := by
  intro fs
  induction fs with
  | nil => intro st; rfl
  | cons f rest ih =>
    intro st
    have hp : (fragment_packet sid route f).routing_header.hops[1]? = some drone := h1
    simp only [send_message_loop, hp]
    by_cases hd : drone ∈ st.senders
    · simp [hd, hopen, ih]
    · simp [hd, ih]

/-- Claim C10: `send_ack` and the `send_message` loop index position 1 of
the reversed inbound hop list without a bounds check.  Whenever the inbound
header has at least two hops that index exists; with it in bounds (and the
target channel open) neither operation panics; and on a one-hop inbound
header the ack emission is out of bounds and panics. -/
theorem c10_ack_bounds :
    (∀ hops : List NodeId, 2 ≤ hops.length → ∃ drone, hops.reverse[1]? = some drone) ∧
    (∀ (st : ServerState) (closed : List NodeId) (fi : Nat) (sid : SessionId)
        (hops : List NodeId) (drone : NodeId),
        hops.reverse[1]? = some drone → drone ∉ closed →
        (send_ack st closed fi sid hops).fin.isSome = true) ∧
    (∀ (st : ServerState) (closed : List NodeId) (dest : NodeId)
        (message : List Nat) (sid : SessionId) (route : List NodeId) (drone : NodeId),
        route.reverse[1]? = some drone → drone ∉ closed →
        (send_message st closed dest message sid route).fin.isSome = true) ∧
    (send_ack egStateLine [] 0 7 [21]).fin = none ∧
    ([21] : List NodeId).length < 2 := by
  refine ⟨?_, ?_, ?_, by decide, by decide⟩
  · intro hops hlen
    have h1 : 1 < hops.reverse.length := by simpa using hlen
    exact ⟨hops.reverse[1], List.getElem?_eq_getElem h1⟩
  · intro st closed fi sid hops drone h1 hopen
    have hp : (ack_packet fi sid hops).routing_header.hops[1]? = some drone := h1
    simp only [send_ack, hp]
    by_cases hd : drone ∈ st.senders <;> simp [hd, hopen]
  · intro st closed dest message sid route drone h1 hopen
    exact send_message_loop_fin closed sid route drone h1 hopen
      (disassemble_message message) st

/-- Witness for C10: on the three-hop inbound header `[21, 2, 1]` the
index is in bounds and neither the ack emission nor the fragment loop
panics. -/
theorem c10_ack_bounds_witness :
    (send_ack egStateLine [] 0 7 [21, 2, 1]).fin.isSome = true ∧
    (send_message egStateLine [] 21 [1, 2, 3] 5 [21, 2, 1]).fin.isSome = true :=
  ⟨c10_ack_bounds.2.1 egStateLine [] 0 7 [21, 2, 1] 2 (by decide) (by decide),
   c10_ack_bounds.2.2.1 egStateLine [] 21 [1, 2, 3] 5 [21, 2, 1] 2 (by decide) (by decide)⟩

/-- `resend_packet` when the retained fragment is found and the freshly
computed route has a next hop with an installed channel: the retained
route is overwritten, the rerouted packet is sent unless the channel is
closed (then the failure is logged and the packet dropped), the
`PacketSent` event is emitted either way, and `session_to_remove` is
returned unchanged. -/
theorem resend_found_route (st : ServerState) (closed : List NodeId)
    (i : Nat) (sid : SessionId) (str : List SessionId) (nt : NackType)
    (packets : List Packet) (packet : Packet) (dest drone : NodeId)
    (hsp : lookupA st.sent_packets sid = some packets)
    (hfind : packets.find? (fun p => fragIdxIs p i) = some packet)
    (hlast : packet.routing_header.hops.getLast? = some dest)
    (hroute : (computeRoute st.topology st.server_id dest)[1]? = some drone)
    (hinst : drone ∈ st.senders) :
    resend_packet st closed i sid str nt =
      (if drone ∈ closed then
        ⟨[], [.PacketSent sid],
          some (resentState st sid i (computeRoute st.topology st.server_id dest))⟩
      else
        ⟨[(drone, rerouted packet (computeRoute st.topology st.server_id dest))],
          [.PacketSent sid],
          some (resentState st sid i (computeRoute st.topology st.server_id dest))⟩,
       str) := by
  have hne : (computeRoute st.topology st.server_id dest).isEmpty = false := by
    cases hc : computeRoute st.topology st.server_id dest with
    | nil => rw [hc] at hroute; simp at hroute
    | cons a l => rfl
  by_cases hcl : drone ∈ closed <;>
    simp [resend_packet, hsp, hfind, hlast, hroute, hne, hinst, hcl,
      resentState, rerouted]

/-- Claim C1 (amended): on `Nack{index i, Dropped}` for session S the node
resends the retained packet along the freshly recomputed shortest-path
route (overwriting the retained hops), and neither the topology nor the
nack queue is modified. -/
theorem c1_dropped_resend (st : ServerState) (closed : List NodeId) (i : Nat)
    (sid : SessionId) (now : Nat) (fid rsid : NodeId → Nat) (timeout : Nat)
    (packets : List Packet) (packet : Packet) (dest drone : NodeId)
    (hsp : lookupA st.sent_packets sid = some packets)
    (hfind : packets.find? (fun p => fragIdxIs p i) = some packet)
    (hlast : packet.routing_header.hops.getLast? = some dest)
    (hroute : (computeRoute st.topology st.server_id dest)[1]? = some drone)
    (hinst : drone ∈ st.senders) (hopen : drone ∉ closed) :
    on_nack_arrived st closed ⟨i, .Dropped⟩ sid now fid rsid timeout =
      ⟨[(drone, rerouted packet (computeRoute st.topology st.server_id dest))],
        [.PacketSent sid],
        some (resentState st sid i (computeRoute st.topology st.server_id dest))⟩ ∧
    (resentState st sid i (computeRoute st.topology st.server_id dest)).topology =
      st.topology ∧
    (resentState st sid i (computeRoute st.topology st.server_id dest)).nack_queue =
      st.nack_queue := by
  refine ⟨?_, rfl, rfl⟩
  have h := resend_found_route st closed i sid [] NackType.Dropped packets packet
    dest drone hsp hfind hlast hroute hinst
  simp only [on_nack_arrived]
  rw [h, if_neg hopen]

/-- Witness for C1 at the S6 scenario state: the retained hops already are
the canonical shortest path, so the resent packet carries the same hops. -/
theorem c1_dropped_resend_witness :
    on_nack_arrived egStateS6 [] ⟨0, .Dropped⟩ 5 0 egZero egZero 0 =
      ⟨[(2, rerouted egPacketMain (computeRoute egStateS6.topology egStateS6.server_id 21))],
        [.PacketSent 5],
        some (resentState egStateS6 5 0
          (computeRoute egStateS6.topology egStateS6.server_id 21))⟩ ∧
    (resentState egStateS6 5 0
        (computeRoute egStateS6.topology egStateS6.server_id 21)).topology =
      egStateS6.topology ∧
    (resentState egStateS6 5 0
        (computeRoute egStateS6.topology egStateS6.server_id 21)).nack_queue =
      egStateS6.nack_queue :=
  c1_dropped_resend egStateS6 [] 0 5 0 egZero egZero 0 [egPacketMain] egPacketMain 21 2
    (by decide) (by decide) (by decide) (by decide) (by decide) (by decide)

/-- Claim C3 (amended): the two send sites that use `unwrap_or_else` —
forwarding a foreign flood reply and resending a retained fragment — do
not panic on a closed receiver: the failure is logged and the packet
dropped.  (The other send sites `unwrap` and do panic, see the
counterexample.) -/
theorem c3_closed_channel :
    (∀ (st : ServerState) (closed : List NodeId) (resp : FloodResponse) (packet : Packet),
      (resp.path_trace.head?.map fun node => node.1) ≠ some st.server_id →
      (on_flood_response st closed resp packet).fin = some st ∧
      (closed.contains (packet.routing_header.hops.getD
          (packet.routing_header.hop_index + 1) 0) = true →
        (on_flood_response st closed resp packet).outs = [])) ∧
    (∀ (st : ServerState) (closed : List NodeId) (i : Nat) (sid : SessionId)
        (str : List SessionId) (nt : NackType) (packets : List Packet)
        (packet : Packet) (dest drone : NodeId),
      lookupA st.sent_packets sid = some packets →
      packets.find? (fun p => fragIdxIs p i) = some packet →
      packet.routing_header.hops.getLast? = some dest →
      (computeRoute st.topology st.server_id dest)[1]? = some drone →
      drone ∈ st.senders → drone ∈ closed →
      (resend_packet st closed i sid str nt).1.fin.isSome = true ∧
      (resend_packet st closed i sid str nt).1.outs = []) := by
  constructor
  · intro st closed resp packet hforeign
    constructor
    · simp only [on_flood_response, if_pos hforeign]
      by_cases h1 : packet.routing_header.hop_index + 1 <
          packet.routing_header.hops.length
      · rw [if_pos h1]
        by_cases h2 : st.senders.contains (packet.routing_header.hops.getD
            (packet.routing_header.hop_index + 1) 0) = true
        · rw [if_pos h2]
          by_cases h3 : closed.contains (packet.routing_header.hops.getD
              (packet.routing_header.hop_index + 1) 0) = true
          · rw [if_pos h3]
          · rw [if_neg h3]
        · rw [if_neg h2]
      · rw [if_neg h1]
    · intro hcl
      simp only [on_flood_response, if_pos hforeign]
      by_cases h1 : packet.routing_header.hop_index + 1 <
          packet.routing_header.hops.length
      · rw [if_pos h1]
        by_cases h2 : st.senders.contains (packet.routing_header.hops.getD
            (packet.routing_header.hop_index + 1) 0) = true
        · rw [if_pos h2, if_pos hcl]
        · rw [if_neg h2]
      · rw [if_neg h1]
  · intro st closed i sid str nt packets packet dest drone hsp hfind hlast hroute
      hinst hcl
    have h := resend_found_route st closed i sid str nt packets packet dest drone
      hsp hfind hlast hroute hinst
    rw [h, if_pos hcl]
    exact ⟨rfl, rfl⟩

/-- Witness for C3: the transiting flood reply of S5 with the receiver of
neighbor 2 closed is dropped without a panic, and a Dropped-nack resend
with the receiver of neighbor 2 closed completes without a panic and
without an output. -/
theorem c3_closed_channel_witness :
    (on_flood_response egStateLine [2] egTransitResponse egTransitPacket).fin =
      some egStateLine ∧
    (on_flood_response egStateLine [2] egTransitResponse egTransitPacket).outs = [] ∧
    (resend_packet egStateS6 [2] 0 5 [] NackType.Dropped).1.fin.isSome = true ∧
    (resend_packet egStateS6 [2] 0 5 [] NackType.Dropped).1.outs = [] :=
  ⟨(c3_closed_channel.1 egStateLine [2] egTransitResponse egTransitPacket (by decide)).1,
   (c3_closed_channel.1 egStateLine [2] egTransitResponse egTransitPacket
      (by decide)).2 (by decide),
   (c3_closed_channel.2 egStateS6 [2] 0 5 [] NackType.Dropped [egPacketMain]
      egPacketMain 21 2 (by decide) (by decide) (by decide) (by decide)
      (by decide) (by decide)).1,
   (c3_closed_channel.2 egStateS6 [2] 0 5 [] NackType.Dropped [egPacketMain]
      egPacketMain 21 2 (by decide) (by decide) (by decide) (by decide)
      (by decide) (by decide)).2⟩

/-- Claim C7 (amended): a foreign flood reply leaves the whole state —
the topology included — unchanged; when its header has a next hop whose
channel is installed and open, it is forwarded with the hops list kept
identical and `hop_index` advanced by exactly one. -/
theorem c7_forward (st : ServerState) (closed : List NodeId)
    (resp : FloodResponse) (packet : Packet)
    (hforeign : (resp.path_trace.head?.map fun node => node.1) ≠ some st.server_id) :
    (on_flood_response st closed resp packet).fin = some st ∧
    (∀ drone : NodeId,
      packet.routing_header.hops[packet.routing_header.hop_index + 1]? = some drone →
      drone ∈ st.senders → drone ∉ closed →
      (on_flood_response st closed resp packet).outs =
        [(drone, forwarded_response resp packet)]) ∧
    (forwarded_response resp packet).routing_header.hops =
      packet.routing_header.hops ∧
    (forwarded_response resp packet).routing_header.hop_index =
      packet.routing_header.hop_index + 1 := by
  refine ⟨?_, ?_, rfl, rfl⟩
  · simp only [on_flood_response, if_pos hforeign]
    by_cases h1 : packet.routing_header.hop_index + 1 <
        packet.routing_header.hops.length
    · rw [if_pos h1]
      by_cases h2 : st.senders.contains (packet.routing_header.hops.getD
          (packet.routing_header.hop_index + 1) 0) = true
      · rw [if_pos h2]
        by_cases h3 : closed.contains (packet.routing_header.hops.getD
            (packet.routing_header.hop_index + 1) 0) = true
        · rw [if_pos h3]
        · rw [if_neg h3]
      · rw [if_neg h2]
    · rw [if_neg h1]
  · intro drone hidx hinst hopen
    obtain ⟨hlt, hge⟩ := List.getElem?_eq_some_iff.mp hidx
    have hgd : packet.routing_header.hops.getD
        (packet.routing_header.hop_index + 1) 0 = drone := by
      simp [List.getD_eq_getElem?_getD, hidx]
    simp [on_flood_response, if_pos hforeign, hlt, hgd, hge, hinst, hopen]

/-- Witness for C7 at scenario S5: the transiting reply is forwarded to
neighbor 2 with hops `[3, 4, 1, 2, 21]` kept and `hop_index` 2 → 3. -/
theorem c7_forward_witness :
    (on_flood_response egStateLine [] egTransitResponse egTransitPacket).fin =
      some egStateLine ∧
    (on_flood_response egStateLine [] egTransitResponse egTransitPacket).outs =
      [(2, forwarded_response egTransitResponse egTransitPacket)] ∧
    (forwarded_response egTransitResponse egTransitPacket).routing_header.hops =
      egTransitPacket.routing_header.hops ∧
    (forwarded_response egTransitResponse egTransitPacket).routing_header.hop_index =
      egTransitPacket.routing_header.hop_index + 1 :=
  ⟨(c7_forward egStateLine [] egTransitResponse egTransitPacket (by decide)).1,
   (c7_forward egStateLine [] egTransitResponse egTransitPacket (by decide)).2.1 2
     (by decide) (by decide) (by decide),
   (c7_forward egStateLine [] egTransitResponse egTransitPacket (by decide)).2.2.1,
   (c7_forward egStateLine [] egTransitResponse egTransitPacket (by decide)).2.2.2⟩

/-- The flood send loop with every receiver open sends one fresh flood
request per neighbor and does not panic. -/
theorem floodLoop_all_open (closed : List NodeId) (sid : NodeId)
    (fid rsid : NodeId → Nat) :
    ∀ l : List NodeId, (∀ n ∈ l, n ∉ closed) →
      floodLoop closed sid fid rsid l =
        (l.map fun n => (n, flood_packet sid (fid n) (rsid n)), false) := by
  intro l
  induction l with
  | nil => intro _; rfl
  | cons n rest ih =>
    intro h
    have hn : n ∉ closed := h n (List.mem_cons_self n rest)
    have hr := ih fun m hm => h m (List.mem_cons_of_mem n hm)
    simp [floodLoop, hn, hr]

/-- Claim C8: a flood initiation inside the cooldown window is a complete
no-op (nothing sent, `flood_time` and the whole state unchanged); outside
the window `flood_time := now` and one `FloodRequest` with
`initiator = self` and `path_trace = [(self, Server)]` goes to every
installed neighbor. -/
theorem c8_flood_cooldown (st : ServerState) (closed : List NodeId) (now : Nat)
    (fid rsid : NodeId → Nat) (timeout : Nat) (htpos : 0 < timeout) :
    (now - st.flood_time < timeout →
      send_flood_request st closed now fid rsid timeout = ⟨[], [], some st⟩) ∧
    (timeout ≤ now - st.flood_time →
      (∀ n ∈ st.senders, n ∉ closed) →
      send_flood_request st closed now fid rsid timeout =
        ⟨st.senders.map (fun n => (n, flood_packet st.server_id (fid n) (rsid n))),
          [], some { st with flood_time := now }⟩) ∧
    (∀ n : NodeId, (flood_packet st.server_id (fid n) (rsid n)).pack_type =
      PacketType.FloodRequest ⟨fid n, st.server_id, [(st.server_id, NodeType.Server)]⟩) := by
  refine ⟨?_, ?_, fun n => rfl⟩
  · intro hcool
    have hc : st.flood_time + timeout > now := by omega
    simp [send_flood_request, hc]
  · intro hcool hopen
    have hc : ¬ st.flood_time + timeout > now := by omega
    have hl := floodLoop_all_open closed st.server_id fid rsid st.senders hopen
    simp [send_flood_request, hc, hl]

/-- Witness for C8: at `flood_time = 0` with `timeout = 5`, initiating at
`now = 0` is a no-op and initiating at `now = 7` floods neighbor 2. -/
theorem c8_flood_cooldown_witness :
    send_flood_request egStateS6 [] 0 egZero egZero 5 = ⟨[], [], some egStateS6⟩ ∧
    send_flood_request egStateS6 [] 7 egZero egZero 5 =
      ⟨egStateS6.senders.map
          (fun n => (n, flood_packet egStateS6.server_id (egZero n) (egZero n))),
        [], some { egStateS6 with flood_time := 7 }⟩ :=
  ⟨(c8_flood_cooldown egStateS6 [] 0 egZero egZero 5 (by decide)).1 (by decide),
   (c8_flood_cooldown egStateS6 [] 7 egZero egZero 5 (by decide)).2.1 (by decide)
     (by decide)⟩

/-- The flood-request forward loop with every receiver open hands the same
packet to every listed neighbor and does not panic. -/
theorem forwardLoop_all_open (closed : List NodeId) (pkt : Packet) :
    ∀ l : List NodeId, (∀ n ∈ l, n ∉ closed) →
      forwardLoop closed pkt l = (l.map fun n => (n, pkt), false) := by
  intro l
  induction l with
  | nil => intro _; rfl
  | cons n rest ih =>
    intro h
    have hn : n ∉ closed := h n (List.mem_cons_self n rest)
    have hr := ih fun m hm => h m (List.mem_cons_of_mem n hm)
    simp [forwardLoop, hn, hr]

/-- Claim C9: a received `FloodRequest` with a nonempty trace is relayed —
with `(self, Server)` appended and nothing else changed — to every
installed neighbor except the one named by the last trace entry; that
neighbor receives nothing, no reply is ever generated, and the state is
unchanged. -/
theorem c9_flood_relay (st : ServerState) (closed : List NodeId)
    (packet_session : SessionId) (request : FloodRequest)
    (last : NodeId × NodeType)
    (hlast : request.path_trace.getLast? = some last)
    (hopen : ∀ n ∈ st.senders, n ∉ closed) :
    on_flood_request st closed packet_session request =
      ⟨(st.senders.filter fun n => n ≠ last.1).map
          (fun n => (n, flood_relay_packet st.server_id packet_session request)),
        [], some st⟩ ∧
    (∀ o ∈ (on_flood_request st closed packet_session request).outs,
      o.1 ≠ last.1) ∧
    (∀ o ∈ (on_flood_request st closed packet_session request).outs,
      isFloodRequestPkt o.2 = true) := by
  have hfl := forwardLoop_all_open closed
    (flood_relay_packet st.server_id packet_session request)
    (st.senders.filter fun n => n ≠ last.1)
    (fun n hn => hopen n (List.mem_of_mem_filter hn))
  have hmain : on_flood_request st closed packet_session request =
      ⟨(st.senders.filter fun n => n ≠ last.1).map
          (fun n => (n, flood_relay_packet st.server_id packet_session request)),
        [], some st⟩ := by
    simp only [ne_eq, decide_not] at hfl
    simp [on_flood_request, hlast, hfl]
  refine ⟨hmain, ?_, ?_⟩
  · intro o ho
    rw [hmain] at ho
    simp only [List.mem_map] at ho
    obtain ⟨n, hn, rfl⟩ := ho
    have hp := List.of_mem_filter hn
    simpa using hp
  · intro o ho
    rw [hmain] at ho
    simp only [List.mem_map] at ho
    obtain ⟨n, hn, rfl⟩ := ho
    rfl

/-- Witness for C9 at scenario S4: the request arrived from neighbor 3, so
only neighbor 2 receives the relay with `(1, Server)` appended. -/
theorem c9_flood_relay_witness :
    on_flood_request egStateDiamond [] 3 ⟨1, 21, [(4, .Drone), (3, .Drone)]⟩ =
      ⟨(egStateDiamond.senders.filter fun n => n ≠ 3).map
          (fun n => (n, flood_relay_packet egStateDiamond.server_id 3
            ⟨1, 21, [(4, .Drone), (3, .Drone)]⟩)),
        [], some egStateDiamond⟩ :=
  (c9_flood_relay egStateDiamond [] 3 ⟨1, 21, [(4, .Drone), (3, .Drone)]⟩
    (3, .Drone) (by decide) (by decide)).1

/-- Under the C6 hypotheses `send_ack` hands exactly the reversed-hops ack
to the delivering neighbor and the fragment handler emits it as its first
output, whatever the request processor and the assembler then do. -/
theorem handle_fragment_head (process : ProcessFn) (st : ServerState)
    (closed : List NodeId) (f : Fragment) (session_id : SessionId)
    (hops : List NodeId) (drone : NodeId)
    (hrev : hops.reverse[1]? = some drone)
    (hinst : drone ∈ st.senders) (hopen : drone ∉ closed) :
    (handle_msg_fragment process st closed f session_id hops).outs.head? =
      some (drone, ack_packet f.fragment_index session_id hops) := by
  have hsend : send_ack st closed f.fragment_index session_id hops =
      ⟨[(drone, ack_packet f.fragment_index session_id hops)], [], some st⟩ := by
    have hp : (ack_packet f.fragment_index session_id hops).routing_header.hops[1]? =
        some drone := hrev
    simp [send_ack, hp, hinst, hopen]
  simp only [handle_msg_fragment, hsend]
  cases h2 : (add_fragment st.assembler f session_id).2 with
  | none => rfl
  | some msg =>
    cases h3 : hops.head? with
    | none => rfl
    | some src => simp

/-- Claim C6: on a received fragment the node emits an `Ack{fragment_index}`
whose hops are exactly the reverse of the received hops with
`hop_index = 1`, as the first output — before anything produced by the
assembler completion path — and the ack is the same whatever the topology
is: its construction never reads the graph. -/
theorem c6_ack_first (process : ProcessFn) (st : ServerState)
    (closed : List NodeId) (f : Fragment) (session_id : SessionId)
    (hops : List NodeId) (drone : NodeId)
    (hrev : hops.reverse[1]? = some drone)
    (hinst : drone ∈ st.senders) (hopen : drone ∉ closed) :
    (handle_msg_fragment process st closed f session_id hops).outs.head? =
      some (drone, ack_packet f.fragment_index session_id hops) ∧
    (ack_packet f.fragment_index session_id hops).routing_header.hops =
      hops.reverse ∧
    (ack_packet f.fragment_index session_id hops).routing_header.hop_index = 1 ∧
    (ack_packet f.fragment_index session_id hops).pack_type =
      PacketType.Ack ⟨f.fragment_index⟩ ∧
    (∀ t : Topology,
      (handle_msg_fragment process { st with topology := t } closed f
          session_id hops).outs.head? =
        some (drone, ack_packet f.fragment_index session_id hops)) :=
  ⟨handle_fragment_head process st closed f session_id hops drone hrev hinst hopen,
   rfl, rfl, rfl,
   fun t => handle_fragment_head process { st with topology := t } closed f
     session_id hops drone hrev hinst hopen⟩

/-- Witness for C6: a fragment with hops `[21, 2, 1]` is acked to neighbor
2 with hops `[1, 2, 21]` first, and swapping the topology for the diamond
graph leaves the ack identical. -/
theorem c6_ack_first_witness :
    (handle_msg_fragment egProcess egStateS6 [] egFrag 7 [21, 2, 1]).outs.head? =
      some (2, ack_packet 0 7 [21, 2, 1]) ∧
    (ack_packet 0 7 [21, 2, 1]).routing_header.hops = [1, 2, 21] ∧
    (ack_packet 0 7 [21, 2, 1]).routing_header.hop_index = 1 ∧
    (handle_msg_fragment egProcess { egStateS6 with topology := egTopoDiamond }
        [] egFrag 7 [21, 2, 1]).outs.head? = some (2, ack_packet 0 7 [21, 2, 1]) :=
  ⟨(c6_ack_first egProcess egStateS6 [] egFrag 7 [21, 2, 1] 2 (by decide)
      (by decide) (by decide)).1,
   by decide, by decide,
   (c6_ack_first egProcess egStateS6 [] egFrag 7 [21, 2, 1] 2 (by decide)
      (by decide) (by decide)).2.2.2.2 egTopoDiamond⟩

end ContentServerProof
